import Mathlib

/-!
Verification development for the NEXRAD-to-Unity export pipeline.

Shallow embedding of:
  - the nearest-file resolver of src/data/nexrad.py, method find_radar_file
    (same loop appears in src/NEXRAD_UNITY.py, create_file, lines 92-156);
  - the grid-input validation of src/data/nexrad.py, method check_grid_inputs,
    together with the km-to-m conversion done by change_radar;
  - the coordinate-grid construction of src/data/nexrad.py, method grid_radar;
  - the binary vector-field writer and the dtype dispatch of
    src/modules/unity_files.py (save_vector_field and create_vector_files);
  - the vector-field and isosurface manifest construction of
    src/modules/unity_files.py.

Datetimes are modelled as integer seconds; datetime(1970,1,1), the arbitrary
initial value of future_time in the loop, is second 0.  Rational numbers stand
for the exact values of the Python floats.
-/

/- ### Archive entries (src/data/nexrad.py, find_radar_file) -/

/-- Classification of one listed archive object, as the loop in
find_radar_file treats it: MDM/tar endings are passed over, the recognized
name patterns yield a parsed timestamp, anything else raises.  The claims
quantify over catalogs whose entries are already correctly classified, so the
embedding works at this level rather than re-implementing strptime. -/
inductive EKind where
  | data (t : ℤ)
  | sidecar
  | unknown
deriving DecidableEq

structure AEntry where
  name : String
  kind : EKind
deriving DecidableEq

def dummyE : AEntry := { name := "", kind := EKind.unknown }

/-- The test the source applies twice: file_ending == "MDM" or "tar". -/
def AEntry.isSidecar (e : AEntry) : Bool :=
  match e.kind with
  | EKind.sidecar => true
  | _ => false

/-- The parsed timestamp of a data entry (0 for the others; only read on
data entries). -/
def timeOf (e : AEntry) : ℤ :=
  match e.kind with
  | EKind.data t => t
  | _ => 0

def timeAt (l : List AEntry) (i : ℕ) : ℤ := timeOf (l.getD i dummyE)

def entryAt (l : List AEntry) (i : ℕ) : AEntry := l.getD i dummyE

theorem timeAt_cons_zero (e : AEntry) (l : List AEntry) : timeAt (e :: l) 0 = timeOf e := rfl

theorem timeAt_cons_succ (e : AEntry) (l : List AEntry) (i : ℕ) :
    timeAt (e :: l) (i + 1) = timeAt l i := rfl

/-- Python list indexing: a negative index wraps around from the end, an index
out of range on either side is an IndexError (modelled as none).  Needed
because the source reads radar_files with index f_index - 2, which is -1 when
f_index is 1. -/
def pyGet (l : List AEntry) (i : ℤ) : Option AEntry :=
  if i < 0 then
    if (-i).toNat ≤ l.length then l.get? (l.length - (-i).toNat) else none
  else l.get? i.toNat

/-- The scanning loop of find_radar_file.  State: idx is the enumerate
counter, fut holds future_time (initialized to datetime(1970,1,1), i.e. 0),
past holds past_time (none while the Python variable is still unassigned;
reading it then is a NameError).  On a sidecar nothing is updated; on a data
entry past_time = future_time, future_time = file_date, and the loop breaks
when file_date > target; an unknown ending raises.  The loop result is
(f_index at exit, future_time, past_time): when the list is exhausted without
a break, f_index keeps the value of the last iteration, idx - 1. -/
def findLoop (tgt : ℤ) : List AEntry → ℕ → ℤ → Option ℤ → Except String (ℕ × ℤ × Option ℤ)
  | [], idx, fut, past => Except.ok (idx - 1, fut, past)
  | e :: rest, idx, fut, past =>
    match e.kind with
    | EKind.sidecar => findLoop tgt rest (idx + 1) fut past
    | EKind.unknown => Except.error "Unknown file type"
    | EKind.data t =>
      if tgt < t then Except.ok (idx, t, some fut)
      else findLoop tgt rest (idx + 1) t (some fut)

structure FindResult where
  file : AEntry
  fTime : ℤ
  dt : ℤ
  warned : Bool
deriving DecidableEq

/-- Packaging of the returned (file, f_time) pair together with the signed
delta dt and the warning decision.  The source computes
t_min = dt.seconds / 60 and warns when t_min >= 15: dt.seconds is the
floor-normalized seconds field of the Python timedelta, dt mod 86400, so the
warning condition is 900 <= dt mod 86400. -/
def mkResult (e : AEntry) (t dt : ℤ) : FindResult :=
  { file := e, fTime := t, dt := dt, warned := decide (900 ≤ dt.emod 86400) }

/-- find_radar_file after the loop.  When f_index is not 0 the candidates are
radar_files[f_index] (future) and radar_files[f_index - 1] (past, stepping to
radar_files[f_index - 2] when that entry is a tar/MDM sidecar); dt_past >=
dt_future selects the future file.  When f_index is 0 the first file is
returned directly.  An empty catalog leaves f_index unassigned (NameError);
reading past_time before assignment is likewise a NameError. -/
def findRadarFile (catalog : List AEntry) (tgt : ℤ) : Except String FindResult :=
  match findLoop tgt catalog 0 0 none with
  | Except.error e => Except.error e
  | Except.ok (fIdx, fut, pastOpt) =>
    if catalog.isEmpty then Except.error "NameError: f_index"
    else if fIdx ≠ 0 then
      match pastOpt with
      | none => Except.error "NameError: past_time"
      | some past =>
        match pyGet catalog (fIdx : ℤ), pyGet catalog ((fIdx : ℤ) - 1) with
        | some futureFile, some pastFile0 =>
          match (if pastFile0.isSidecar then pyGet catalog ((fIdx : ℤ) - 2) else some pastFile0) with
          | some pastFile =>
            if fut - tgt ≤ tgt - past then mkResult futureFile fut (fut - tgt) |> Except.ok
            else mkResult pastFile past (tgt - past) |> Except.ok
          | none => Except.error "IndexError"
        | _, _ => Except.error "IndexError"
    else
      match pyGet catalog 0 with
      | some e => Except.ok (mkResult e fut (fut - tgt))
      | none => Except.error "IndexError"

/- Quick sanity examples (spec section 8 scenario): catalog
["KXYZ...000012_V06", "KXYZ...000512_V06", "TAR_SIDECAR.tar"], target 180 s
after the first entry base: resolves to the second entry, delta 132 s. -/

example :
    findRadarFile
      [{ name := "KXYZ19990101_000012_V06", kind := EKind.data 12 },
       { name := "KXYZ19990101_000512_V06", kind := EKind.data 312 },
       { name := "TAR_SIDECAR.tar", kind := EKind.sidecar }] 180 =
    Except.ok { file := { name := "KXYZ19990101_000512_V06", kind := EKind.data 312 },
                fTime := 312, dt := 132, warned := false } := rfl

/- ### Grid specification and validation (src/data/nexrad.py, change_radar and
check_grid_inputs) -/

/-- The grid parameters of change_radar.  The x/y/z start and end arguments
arrive in kilometres, the two resolutions in metres. -/
structure Grid where
  hRes : ℚ
  xStart : ℚ
  xEnd : ℚ
  yStart : ℚ
  yEnd : ℚ
  zStart : ℚ
  zEnd : ℚ
  vRes : ℚ
deriving DecidableEq

/-- change_radar multiplies the six extent arguments by 1000 before storing
them; the resolutions are stored as given. -/
def toMeters (g : Grid) : Grid :=
  { hRes := g.hRes
    xStart := g.xStart * 1000
    xEnd := g.xEnd * 1000
    yStart := g.yStart * 1000
    yEnd := g.yEnd * 1000
    zStart := g.zStart * 1000
    zEnd := g.zEnd * 1000
    vRes := g.vRes }

/-- The non-fatal warnings of check_grid_inputs: extents beyond plus or minus
230 km, horizontal resolution below 250 m or above 10000 m, vertical
resolution above 2000 m. -/
def softWarnings (m : Grid) : List String :=
  (if m.xStart > 230000 then ["X start is greater than 230 km"]
   else if m.xStart < -230000 then ["X start is less than -230 km"] else []) ++
  (if m.xEnd > 230000 then ["X end is greater than 230 km"]
   else if m.xEnd < -230000 then ["X end is less than -230 km"] else []) ++
  (if m.yStart > 230000 then ["Y start is greater than 230 km"]
   else if m.yStart < -230000 then ["Y start is less than -230 km"] else []) ++
  (if m.yEnd > 230000 then ["Y end is greater than 230 km"]
   else if m.yEnd < -230000 then ["Y end is less than -230 km"] else []) ++
  (if m.hRes < 250 then ["horizontal resolution is below the NEXRAD spatial resolution"] else []) ++
  (if m.hRes > 10000 then ["horizontal resolution is very coarse"] else []) ++
  (if m.vRes > 2000 then ["vertical resolution is very coarse"] else [])

/-- check_grid_inputs on the stored (metre) values: the four extent/ordering
checks and the two resolution checks raise ValueError (modelled as
Except.error, in source order); the soft conditions only warn. -/
def checkGridInputs (m : Grid) : Except String (List String) :=
  if m.xStart > m.xEnd then Except.error "the starting x value cannot be greater than the ending x"
  else if m.yStart > m.yEnd then Except.error "the starting y value cannot be greater than the ending y"
  else if m.zStart > m.zEnd then Except.error "the starting z value cannot be greater than the ending z"
  else if m.zStart < 0 then Except.error "your starting z must be greater than 0"
  else if m.hRes ≤ 0 then Except.error "a radar horizontal resolution must be greater than 0"
  else if m.vRes ≤ 0 then Except.error "a radar vertical resolution must be greater than 0"
  else Except.ok (softWarnings m)

/- ### Coordinate grid construction (src/data/nexrad.py, grid_radar) -/

/-- Length of np.arange(start, stop, step) for a positive step:
max(0, ceil((stop - start) / step)). -/
def arangeLen (start stop step : ℚ) : ℕ := (Int.ceil ((stop - start) / step)).toNat

/-- np.arange(start, stop, step) for a positive step. -/
def arange (start stop step : ℚ) : List ℚ :=
  (List.range (arangeLen start stop step)).map (fun k : ℕ => start + (k : ℚ) * step)

/-- xs = np.arange(x_start, x_end + horizontal_resolution, horizontal_resolution),
on the stored metre values. -/
def xsOf (m : Grid) : List ℚ := arange m.xStart (m.xEnd + m.hRes) m.hRes

def ysOf (m : Grid) : List ℚ := arange m.yStart (m.yEnd + m.hRes) m.hRes

def zsOf (m : Grid) : List ℚ := arange m.zStart (m.zEnd + m.vRes) m.vRes

abbrev Vol3 := List (List (List ℚ))

/-- np.meshgrid(a, b, c) with the default indexing: the first two inputs are
swapped in the output index order, so every output has shape
(b.length, a.length, c.length), and output k broadcasts input k along the
other two axes. -/
def npMeshgrid (a b c : List ℚ) : Vol3 × Vol3 × Vol3 :=
  (b.map (fun _ => a.map (fun av => c.map (fun _ => av))),
   b.map (fun bv => a.map (fun _ => c.map (fun _ => bv))),
   b.map (fun _ => a.map (fun _ => c)))

/-- self.y, self.z, self.x = np.meshgrid(ys, zs, xs) in grid_radar. -/
def gridVols (m : Grid) : Vol3 × Vol3 × Vol3 := npMeshgrid (ysOf m) (zsOf m) (xsOf m)

/-- (z_grid_points, y_grid_points, x_grid_points) = (len(zs), len(ys), len(xs)),
the grid_shape passed to grid_from_radars. -/
def gridShape (m : Grid) : ℕ × ℕ × ℕ :=
  ((zsOf m).length, (ysOf m).length, (xsOf m).length)

/-- change_radar, restricted to the steps the claims are about: store the
converted grid values, run check_grid_inputs (a ValueError there propagates,
so nothing later runs), then find the radar file and build the grid. -/
def changeRadar (g : Grid) (catalog : List AEntry) (tgt : ℤ) :
    Except String (List String × FindResult × (ℕ × ℕ × ℕ)) :=
  match checkGridInputs (toMeters g) with
  | Except.error e => Except.error e
  | Except.ok ws =>
    match findRadarFile catalog tgt with
    | Except.error e => Except.error e
    | Except.ok r => Except.ok (ws, r, gridShape (toMeters g))

/-- A shape predicate for the nested-list volumes. -/
def hasShape3 (v : Vol3) (d0 d1 d2 : ℕ) : Prop :=
  v.length = d0 ∧ ∀ p ∈ v, p.length = d1 ∧ ∀ r ∈ p, r.length = d2

theorem checkGridInputs_error (m : Grid)
    (h : m.xStart > m.xEnd ∨ m.yStart > m.yEnd ∨ m.zStart > m.zEnd ∨
      m.zStart < 0 ∨ m.hRes ≤ 0 ∨ m.vRes ≤ 0) :
    ∃ msg, checkGridInputs m = Except.error msg := by
  unfold checkGridInputs
  split_ifs <;> first
    | exact ⟨_, rfl⟩
    | tauto

/-- C4: a grid specification with start > end on the x, y or z axis, or with
z_start < 0, or with a nonpositive horizontal or vertical resolution, makes
change_radar raise a ValueError; the kilometre extents are scaled by 1000
before the checks, and the failure happens before the radar file is looked up
or read: the result is the same error for every catalog and target time. -/
theorem grid_validation_fatal (g : Grid)
    (h : g.xStart > g.xEnd ∨ g.yStart > g.yEnd ∨ g.zStart > g.zEnd ∨
      g.zStart < 0 ∨ g.hRes ≤ 0 ∨ g.vRes ≤ 0) :
    ∃ msg, ∀ (catalog : List AEntry) (tgt : ℤ),
      changeRadar g catalog tgt = Except.error msg := by
  have hm : g.xStart * 1000 > g.xEnd * 1000 ∨ g.yStart * 1000 > g.yEnd * 1000 ∨
      g.zStart * 1000 > g.zEnd * 1000 ∨ g.zStart * 1000 < 0 ∨
      g.hRes ≤ 0 ∨ g.vRes ≤ 0 := by
    rcases h with h | h | h | h | h | h
    · exact Or.inl (by linarith)
    · exact Or.inr (Or.inl (by linarith))
    · exact Or.inr (Or.inr (Or.inl (by linarith)))
    · exact Or.inr (Or.inr (Or.inr (Or.inl (by linarith))))
    · exact Or.inr (Or.inr (Or.inr (Or.inr (Or.inl h))))
    · exact Or.inr (Or.inr (Or.inr (Or.inr (Or.inr h))))
  obtain ⟨msg, hmsg⟩ := checkGridInputs_error (toMeters g) hm
  refine ⟨msg, fun catalog tgt => ?_⟩
  unfold changeRadar
  rw [hmsg]

def gBad : Grid :=
  { hRes := 1000, xStart := 10, xEnd := -10, yStart := -10, yEnd := 10,
    zStart := 0, zEnd := 20, vRes := 500 }

theorem grid_validation_fatal_witness :
    gBad.xStart > gBad.xEnd ∧
    ∃ msg, ∀ (catalog : List AEntry) (tgt : ℤ),
      changeRadar gBad catalog tgt = Except.error msg :=
  ⟨by norm_num [gBad], grid_validation_fatal gBad (Or.inl (by norm_num [gBad]))⟩

theorem length_arange (s stop r : ℚ) : (arange s stop r).length = arangeLen s stop r := by
  rw [arange, List.length_map, List.length_range]

theorem arangeLen_inclusive (s e r : ℚ) (hse : s ≤ e) (hr : 0 < r) :
    arangeLen s (e + r) r = (Int.ceil ((e - s) / r)).toNat + 1 := by
  unfold arangeLen
  have hr0 : r ≠ 0 := ne_of_gt hr
  have h1 : (e + r - s) / r = (e - s) / r + 1 := by
    rw [show e + r - s = (e - s) + r by ring, add_div, div_self hr0]
  rw [h1, Int.ceil_add_one]
  have h2 : (0 : ℚ) ≤ (e - s) / r := div_nonneg (by linarith) (le_of_lt hr)
  have h3 : 0 ≤ Int.ceil ((e - s) / r) := Int.ceil_nonneg h2
  omega

theorem npMeshgrid_shapes (a b c : List ℚ) :
    hasShape3 (npMeshgrid a b c).1 b.length a.length c.length ∧
    hasShape3 (npMeshgrid a b c).2.1 b.length a.length c.length ∧
    hasShape3 (npMeshgrid a b c).2.2 b.length a.length c.length := by
  unfold npMeshgrid hasShape3
  refine ⟨⟨by simp, ?_⟩, ⟨by simp, ?_⟩, ⟨by simp, ?_⟩⟩
  all_goals
    intro p hp
    simp only [List.mem_map] at hp
    obtain ⟨bv, _, rfl⟩ := hp
    refine ⟨by simp, ?_⟩
    intro r hr
    simp only [List.mem_map] at hr
    obtain ⟨av, _, rfl⟩ := hr
    simp

/-- C5: for a valid grid specification the three meshgrid coordinate volumes
all have shape (ceil((z_end - z_start) / v_res) + 1,
ceil((y_end - y_start) / h_res) + 1, ceil((x_end - x_start) / h_res) + 1),
which is also the grid_shape handed to the gridding library. -/
theorem grid_volume_shapes (m : Grid)
    (hx : m.xStart ≤ m.xEnd) (hy : m.yStart ≤ m.yEnd) (hz : m.zStart ≤ m.zEnd)
    (hh : 0 < m.hRes) (hv : 0 < m.vRes) :
    hasShape3 (gridVols m).1 ((Int.ceil ((m.zEnd - m.zStart) / m.vRes)).toNat + 1)
      ((Int.ceil ((m.yEnd - m.yStart) / m.hRes)).toNat + 1)
      ((Int.ceil ((m.xEnd - m.xStart) / m.hRes)).toNat + 1) ∧
    hasShape3 (gridVols m).2.1 ((Int.ceil ((m.zEnd - m.zStart) / m.vRes)).toNat + 1)
      ((Int.ceil ((m.yEnd - m.yStart) / m.hRes)).toNat + 1)
      ((Int.ceil ((m.xEnd - m.xStart) / m.hRes)).toNat + 1) ∧
    hasShape3 (gridVols m).2.2 ((Int.ceil ((m.zEnd - m.zStart) / m.vRes)).toNat + 1)
      ((Int.ceil ((m.yEnd - m.yStart) / m.hRes)).toNat + 1)
      ((Int.ceil ((m.xEnd - m.xStart) / m.hRes)).toNat + 1) ∧
    gridShape m = ((Int.ceil ((m.zEnd - m.zStart) / m.vRes)).toNat + 1,
      (Int.ceil ((m.yEnd - m.yStart) / m.hRes)).toNat + 1,
      (Int.ceil ((m.xEnd - m.xStart) / m.hRes)).toNat + 1) := by
  have hxlen : (xsOf m).length = (Int.ceil ((m.xEnd - m.xStart) / m.hRes)).toNat + 1 := by
    rw [xsOf, length_arange, arangeLen_inclusive _ _ _ hx hh]
  have hylen : (ysOf m).length = (Int.ceil ((m.yEnd - m.yStart) / m.hRes)).toNat + 1 := by
    rw [ysOf, length_arange, arangeLen_inclusive _ _ _ hy hh]
  have hzlen : (zsOf m).length = (Int.ceil ((m.zEnd - m.zStart) / m.vRes)).toNat + 1 := by
    rw [zsOf, length_arange, arangeLen_inclusive _ _ _ hz hv]
  have hms := npMeshgrid_shapes (ysOf m) (zsOf m) (xsOf m)
  rw [hxlen, hylen, hzlen] at hms
  exact ⟨hms.1, hms.2.1, hms.2.2, by rw [gridShape, hxlen, hylen, hzlen]⟩

def gDemo : Grid :=
  { hRes := 1000, xStart := -10000, xEnd := 10000, yStart := -10000, yEnd := 10000,
    zStart := 0, zEnd := 5000, vRes := 500 }

theorem grid_volume_shapes_witness :
    gDemo.xStart ≤ gDemo.xEnd ∧
    hasShape3 (gridVols gDemo).1 11 21 21 ∧ gridShape gDemo = (11, 21, 21) := by
  have h := grid_volume_shapes gDemo (by norm_num [gDemo]) (by norm_num [gDemo])
    (by norm_num [gDemo]) (by norm_num [gDemo]) (by norm_num [gDemo])
  have ez : (Int.ceil ((gDemo.zEnd - gDemo.zStart) / gDemo.vRes)).toNat + 1 = 11 := by
    rw [show (gDemo.zEnd - gDemo.zStart) / gDemo.vRes = ((10 : ℤ) : ℚ) by norm_num [gDemo],
      Int.ceil_intCast]
    decide
  have ey : (Int.ceil ((gDemo.yEnd - gDemo.yStart) / gDemo.hRes)).toNat + 1 = 21 := by
    rw [show (gDemo.yEnd - gDemo.yStart) / gDemo.hRes = ((20 : ℤ) : ℚ) by norm_num [gDemo],
      Int.ceil_intCast]
    decide
  have ex : (Int.ceil ((gDemo.xEnd - gDemo.xStart) / gDemo.hRes)).toNat + 1 = 21 := by
    rw [show (gDemo.xEnd - gDemo.xStart) / gDemo.hRes = ((20 : ℤ) : ℚ) by norm_num [gDemo],
      Int.ceil_intCast]
    decide
  refine ⟨by norm_num [gDemo], ?_, ?_⟩
  · have h1 := h.1
    rw [ez, ey, ex] at h1
    exact h1
  · have h4 := h.2.2.2
    rw [ez, ey, ex] at h4
    exact h4


/- ### The binary .vf writer (src/modules/unity_files.py, save_vector_field
and create_vector_files) -/

/-- The ASCII codes of the four magic bytes VF_F written first. -/
def fourccBytes : List ℕ := [86, 70, 95, 70]

/-- The two little-endian bytes of an unsigned 16-bit integer. -/
def u16le (n : ℕ) : List ℕ := [n % 256, n / 256]

/-- struct.pack of one H field: two little-endian bytes, raising struct.error
outside the unsigned 16-bit range. -/
def packH (n : ℕ) : Except String (List ℕ) :=
  if n < 65536 then Except.ok (u16le n)
  else Except.error "struct.error: H format requires 0 <= number <= 65535"

/-- struct.pack of one little-endian f field; a sample is represented by the
32-bit pattern of the float32 value, written as four little-endian bytes. -/
def packF (bits : ℕ) : List ℕ :=
  [bits % 256, bits / 256 % 256, bits / 65536 % 256, bits / 16777216 % 256]

/-- One component volume, each sample given by its float32 bit pattern. -/
abbrev VolN := List (List (List ℕ))

def get3 (v : VolN) (z y x : ℕ) : ℕ := ((v.getD z []).getD y []).getD x 0

def rect3 (vol : VolN) (d h w : ℕ) : Prop :=
  vol.length = d ∧ ∀ p ∈ vol, p.length = h ∧ ∀ r ∈ p, r.length = w

/-- The bytes written for one component: the FourCC, then
struct.pack of (width, height, depth) where (i, depth, height, width) is the
shape of the stacked array, then the triple loop
for z in range(depth): for y in range(height): for x in range(width)
packing vector_field[i, z, y, x] as one little-endian float each. -/
def vfFileBytes (vol : VolN) : Except String (List ℕ) :=
  let depth := vol.length
  let height := (vol.headD []).length
  let width := ((vol.headD []).headD []).length
  match packH width, packH height, packH depth with
  | Except.ok bw, Except.ok bh, Except.ok bd =>
    Except.ok (fourccBytes ++ (bw ++ bh ++ bd) ++
      ((List.range depth).flatMap (fun z =>
        (List.range height).flatMap (fun y =>
          (List.range width).flatMap (fun x => packF (get3 vol z y x))))))
  | Except.error e, _, _ => Except.error e
  | _, Except.error e, _ => Except.error e
  | _, _, Except.error e => Except.error e

/-- The same byte stream described structurally: every sample of the volume,
flattened in index order z, then y, then x, each packed to four bytes. -/
def vfPayload (vol : VolN) : List ℕ :=
  vol.flatMap (fun p => p.flatMap (fun r => r.flatMap packF))

theorem range_flatMap_getD {α β : Type} (l : List α) (dflt : α) (f : α → List β) :
    (List.range l.length).flatMap (fun i => f (l.getD i dflt)) = l.flatMap f := by
  induction l with
  | nil => simp
  | cons a l ih =>
    rw [List.length_cons, List.range_succ_eq_map, List.flatMap_cons, List.flatMap_map]
    simp only [List.getD_cons_zero, List.getD_cons_succ]
    rw [ih, List.flatMap_cons]

theorem loop_eq_payload (vol : VolN) (d h w : ℕ) (hrect : rect3 vol d h w) :
    (List.range d).flatMap (fun z =>
      (List.range h).flatMap (fun y =>
        (List.range w).flatMap (fun x => packF (get3 vol z y x)))) = vfPayload vol := by
  obtain ⟨hlen, hp⟩ := hrect
  subst hlen
  simp only [get3]
  rw [range_flatMap_getD vol []
    (fun p => (List.range h).flatMap (fun y =>
      (List.range w).flatMap (fun x => packF ((p.getD y []).getD x 0))))]
  apply List.flatMap_congr
  intro p hpmem
  obtain ⟨hplen, hrow⟩ := hp p hpmem
  subst hplen
  rw [range_flatMap_getD p []
    (fun r => (List.range w).flatMap (fun x => packF (r.getD x 0)))]
  apply List.flatMap_congr
  intro r hrmem
  have hwlen := hrow r hrmem
  subst hwlen
  exact range_flatMap_getD r 0 packF

theorem length_row_payload (r : List ℕ) : (r.flatMap packF).length = 4 * r.length := by
  induction r with
  | nil => simp
  | cons a r ih =>
    rw [List.flatMap_cons, List.length_append, ih, show (packF a).length = 4 from rfl,
      List.length_cons]
    ring

theorem length_plane_payload (p : List (List ℕ)) (w : ℕ) (hrow : ∀ r ∈ p, r.length = w) :
    (p.flatMap (fun r => r.flatMap packF)).length = 4 * (w * p.length) := by
  induction p with
  | nil => simp
  | cons r p ih =>
    rw [List.flatMap_cons, List.length_append, length_row_payload,
      hrow r (List.mem_cons_self r p), ih (fun q hq => hrow q (List.mem_cons_of_mem _ hq)),
      List.length_cons]
    ring

theorem length_payload_aux (w h : ℕ) :
    ∀ vol : VolN, (∀ p ∈ vol, p.length = h ∧ ∀ r ∈ p, r.length = w) →
      (vfPayload vol).length = 4 * (w * h * vol.length) := by
  intro vol
  induction vol with
  | nil => intro _; simp [vfPayload]
  | cons p vol ih =>
    intro hp
    have hpl := hp p (List.mem_cons_self p vol)
    rw [vfPayload, List.flatMap_cons, List.length_append,
      show (vol.flatMap fun q => q.flatMap fun r => r.flatMap packF) = vfPayload vol from rfl,
      ih (fun q hq => hp q (List.mem_cons_of_mem _ hq)),
      length_plane_payload p w hpl.2, hpl.1, List.length_cons]
    ring

theorem length_payload (vol : VolN) (d h w : ℕ) (hrect : rect3 vol d h w) :
    (vfPayload vol).length = 4 * (w * h * d) := by
  obtain ⟨hlen, hp⟩ := hrect
  subst hlen
  exact length_payload_aux w h vol hp

theorem packH_of_lt {n : ℕ} (h : n < 65536) : packH n = Except.ok (u16le n) := by
  simp [packH, h]

/-- C6: for a rectangular component volume with post-transpose extents
(width, height, depth), each below 65536, the written file is exactly the
four magic bytes, the three little-endian unsigned 16-bit extents in the
order width, height, depth, and then the 4-byte little-endian float32
samples in nested z, y, x order; its total size is
10 + 4 * width * height * depth bytes. -/
theorem vf_file_layout (vol : VolN) (w h d : ℕ)
    (hrect : rect3 vol d h w) (hd : 0 < d) (hh : 0 < h)
    (hw16 : w < 65536) (hh16 : h < 65536) (hd16 : d < 65536) :
    vfFileBytes vol = Except.ok (fourccBytes ++ (u16le w ++ u16le h ++ u16le d) ++ vfPayload vol) ∧
    (fourccBytes ++ (u16le w ++ u16le h ++ u16le d) ++ vfPayload vol).length =
      10 + 4 * (w * h * d) := by
  have hdepth : vol.length = d := hrect.1
  obtain ⟨p, vrest, rfl⟩ : ∃ p vrest, vol = p :: vrest := by
    cases vol with
    | nil => simp at hdepth; omega
    | cons p vrest => exact ⟨p, vrest, rfl⟩
  have hNow := hrect.2 p (List.mem_cons_self p vrest)
  have hheight : ((p :: vrest).headD []).length = h := by
    simpa using hNow.1
  obtain ⟨r, prest, rfl⟩ : ∃ r prest, p = r :: prest := by
    cases p with
    | nil => simp at hheight; omega
    | cons r prest => exact ⟨r, prest, rfl⟩
  have hwidth : (((r :: prest) :: vrest).headD []).headD [] = r := rfl
  have hwlen : r.length = w := hNow.2 r (List.mem_cons_self r prest)
  constructor
  · show vfFileBytes ((r :: prest) :: vrest) = _
    unfold vfFileBytes
    simp only [List.headD_cons]
    rw [hwlen, hNow.1, hdepth, packH_of_lt hw16, packH_of_lt hh16, packH_of_lt hd16]
    have hloop := loop_eq_payload ((r :: prest) :: vrest) d h w hrect
    rw [hloop]
  · rw [List.length_append, List.length_append,
      length_payload _ d h w hrect]
    simp [fourccBytes, u16le]

def volDemo : VolN := [[[1, 2], [3, 4]]]

theorem vf_file_layout_witness :
    rect3 volDemo 1 2 2 ∧
    vfFileBytes volDemo =
      Except.ok (fourccBytes ++ (u16le 2 ++ u16le 2 ++ u16le 1) ++ vfPayload volDemo) ∧
    (fourccBytes ++ (u16le 2 ++ u16le 2 ++ u16le 1) ++ vfPayload volDemo).length =
      10 + 4 * (2 * 2 * 1) := by
  have hrect : rect3 volDemo 1 2 2 := ⟨rfl, by decide⟩
  have h := vf_file_layout volDemo 2 2 1 hrect (by decide) (by decide)
    (by decide) (by decide) (by decide)
  exact ⟨hrect, h.1, h.2⟩

/- ### Normalization of a stacked vector field
(src/modules/unity_files.py: vector_field = np.stack(...);
v_field = np.absolute(vector_field); maximum = np.amax(v_field);
vector_field = vector_field / maximum) -/

/-- An IEEE-style value as produced by numpy float division: a finite value
(kept exact as a rational), or nan / plus-minus inf. -/
inductive FVal where
  | num (q : ℚ)
  | nan
  | inf
  | ninf
deriving DecidableEq

/-- numpy float division of finite values: a finite quotient when the divisor
is nonzero; dividing zero by zero gives nan, a nonzero value by zero gives a
signed infinity (with a RuntimeWarning, not an exception). -/
def fdiv (a b : ℚ) : FVal :=
  if b = 0 then
    if a = 0 then FVal.nan else if 0 < a then FVal.inf else FVal.ninf
  else FVal.num (a / b)

/-- One finite component volume of the stack. -/
def flat3 (v : Vol3) : List ℚ := v.flatMap (fun p => p.flatMap (fun r => r))

/-- All samples of np.stack of the supplied components, flattened. -/
def stackFlat (cs : List Vol3) : List ℚ := cs.flatMap flat3

/-- np.amax(np.absolute(vector_field)): the largest absolute value over every
sample of every supplied component jointly.  The fold starts at 0, which
agrees with np.amax on any nonempty collection since the folded values are
absolute values. -/
def jointAbsMax (cs : List Vol3) : ℚ :=
  (stackFlat cs).foldl (fun acc v => max acc |v|) 0

def map3 (f : ℚ → FVal) (v : Vol3) : List (List (List FVal)) :=
  v.map (fun p => p.map (fun r => r.map f))

/-- vector_field / maximum: every sample of every component divided by the
single joint maximum. -/
def normalizeStack (cs : List Vol3) : List (List (List (List FVal))) :=
  cs.map (map3 (fun v => fdiv v (jointAbsMax cs)))

/-- All output samples, flattened in the same order as stackFlat. -/
def outFlat (o : List (List (List (List FVal)))) : List FVal :=
  o.flatMap (fun c => c.flatMap (fun p => p.flatMap (fun r => r)))

theorem flat_plane_map (g : ℚ → FVal) (p : List (List ℚ)) :
    ((p.map (fun r => r.map g)).flatMap (fun r => r)) = (p.flatMap (fun r => r)).map g := by
  induction p with
  | nil => simp
  | cons r p ih =>
    rw [List.map_cons, List.flatMap_cons, List.flatMap_cons, List.map_append, ih]

theorem flat_map3 (g : ℚ → FVal) (c : Vol3) :
    ((map3 g c).flatMap (fun p => p.flatMap (fun r => r))) = (flat3 c).map g := by
  induction c with
  | nil => simp [map3, flat3]
  | cons p c ih =>
    rw [map3, flat3, List.map_cons, List.flatMap_cons, List.flatMap_cons, List.map_append]
    rw [show (List.map (fun p => List.map (fun r => List.map g r) p) c) = map3 g c from rfl,
      show (c.flatMap fun p => p.flatMap fun r => r) = flat3 c from rfl, ih]
    rw [flat_plane_map]

theorem outFlat_normalize (cs : List Vol3) :
    outFlat (normalizeStack cs) =
      (stackFlat cs).map (fun v => fdiv v (jointAbsMax cs)) := by
  rw [normalizeStack, outFlat, stackFlat, List.flatMap_map, List.map_flatMap]
  apply List.flatMap_congr
  intro c _
  exact flat_map3 _ c

theorem foldl_absmax_init_le (l : List ℚ) :
    ∀ acc : ℚ, acc ≤ l.foldl (fun a v => max a |v|) acc := by
  induction l with
  | nil => intro acc; simp
  | cons x l ih =>
    intro acc
    rw [List.foldl_cons]
    exact le_trans (le_max_left acc |x|) (ih (max acc |x|))

theorem mem_le_foldl_absmax (l : List ℚ) :
    ∀ (acc v : ℚ), v ∈ l → |v| ≤ l.foldl (fun a w => max a |w|) acc := by
  induction l with
  | nil => intro acc v hv; simp at hv
  | cons x l ih =>
    intro acc v hv
    rw [List.foldl_cons]
    rcases List.mem_cons.mp hv with rfl | hv
    · exact le_trans (le_max_right acc |v|) (foldl_absmax_init_le l (max acc |v|))
    · exact ih (max acc |x|) v hv

theorem foldl_absmax_cases (l : List ℚ) :
    ∀ acc : ℚ, l.foldl (fun a w => max a |w|) acc = acc ∨
      ∃ v ∈ l, l.foldl (fun a w => max a |w|) acc = |v| := by
  induction l with
  | nil => intro acc; exact Or.inl rfl
  | cons x l ih =>
    intro acc
    rw [List.foldl_cons]
    rcases ih (max acc |x|) with h | ⟨v, hv, h⟩
    · rcases max_choice acc |x| with hm | hm
      · exact Or.inl (by rw [h, hm])
      · exact Or.inr ⟨x, List.mem_cons_self x l, by rw [h, hm]⟩
    · exact Or.inr ⟨v, List.mem_cons_of_mem _ hv, h⟩

theorem foldl_absmax_nonneg (l : List ℚ) :
    ∀ acc : ℚ, 0 ≤ acc → 0 ≤ l.foldl (fun a w => max a |w|) acc := by
  intro acc hacc
  exact le_trans hacc (foldl_absmax_init_le l acc)

theorem jointAbsMax_nonneg (cs : List Vol3) : 0 ≤ jointAbsMax cs :=
  foldl_absmax_nonneg (stackFlat cs) 0 le_rfl

theorem le_jointAbsMax (cs : List Vol3) (v : ℚ) (hv : v ∈ stackFlat cs) :
    |v| ≤ jointAbsMax cs :=
  mem_le_foldl_absmax (stackFlat cs) 0 v hv

theorem jointAbsMax_attained (cs : List Vol3) :
    jointAbsMax cs = 0 ∨ ∃ v ∈ stackFlat cs, jointAbsMax cs = |v| :=
  foldl_absmax_cases (stackFlat cs) 0

theorem foldl_absmax_all_zero (l : List ℚ) :
    ∀ acc : ℚ, 0 ≤ acc → (∀ v ∈ l, v = 0) → l.foldl (fun a w => max a |w|) acc = acc := by
  induction l with
  | nil => intro acc _ _; rfl
  | cons x l ih =>
    intro acc hacc hall
    rw [List.foldl_cons, hall x (List.mem_cons_self x l)]
    rw [show |(0:ℚ)| = 0 from abs_zero, max_eq_left hacc]
    exact ih acc hacc (fun v hv => hall v (List.mem_cons_of_mem _ hv))

/-- C7 as amended: with normalization requested, every sample of every
supplied component is divided by the one joint maximum absolute value; when
that maximum is nonzero every written value is finite with absolute value at
most 1 and the maximum absolute value over all components is exactly 1; when
every sample is zero the division is 0/0 and every output sample is nan (a
defined value, not an exception), not zero. -/
theorem normalize_joint_bounds (cs : List Vol3) :
    (jointAbsMax cs ≠ 0 →
      ∀ fv ∈ outFlat (normalizeStack cs), ∃ q, fv = FVal.num q ∧ |q| ≤ 1) ∧
    (jointAbsMax cs ≠ 0 →
      ∃ fv ∈ outFlat (normalizeStack cs), ∃ q, fv = FVal.num q ∧ |q| = 1) ∧
    ((∀ v ∈ stackFlat cs, v = 0) →
      ∀ fv ∈ outFlat (normalizeStack cs), fv = FVal.nan) := by
  have hflat := outFlat_normalize cs
  refine ⟨?_, ?_, ?_⟩
  · intro hm fv hfv
    rw [hflat] at hfv
    obtain ⟨v, hv, rfl⟩ := List.mem_map.mp hfv
    have hpos : 0 < jointAbsMax cs := lt_of_le_of_ne (jointAbsMax_nonneg cs) (Ne.symm hm)
    refine ⟨v / jointAbsMax cs, by rw [fdiv, if_neg hm], ?_⟩
    rw [abs_div, abs_of_pos hpos, div_le_one hpos]
    exact le_jointAbsMax cs v hv
  · intro hm
    rcases jointAbsMax_attained cs with h0 | ⟨v, hv, hattain⟩
    · exact absurd h0 hm
    have hpos : 0 < jointAbsMax cs := lt_of_le_of_ne (jointAbsMax_nonneg cs) (Ne.symm hm)
    refine ⟨fdiv v (jointAbsMax cs), ?_, v / jointAbsMax cs, by rw [fdiv, if_neg hm], ?_⟩
    · rw [hflat]
      exact List.mem_map_of_mem _ hv
    · rw [abs_div, abs_of_pos hpos, ← hattain, div_self (ne_of_gt hpos)]
  · intro hzero fv hfv
    have hm0 : jointAbsMax cs = 0 :=
      foldl_absmax_all_zero (stackFlat cs) 0 le_rfl hzero
    rw [hflat] at hfv
    obtain ⟨v, hv, rfl⟩ := List.mem_map.mp hfv
    rw [hzero v hv, hm0, fdiv, if_pos rfl, if_pos rfl]

/-- C7 counterexample: normalizing the all-zero field divides zero by zero,
so the output sample is nan, not the zero the claim promises. -/
theorem normalize_zero_gives_nan :
    normalizeStack [[[[0]]]] = [[[[FVal.nan]]]] ∧ FVal.nan ≠ FVal.num 0 :=
  ⟨by decide, by decide⟩

def csDemo : List Vol3 := [[[[3, -1]]]]

theorem normalize_joint_bounds_witness :
    jointAbsMax csDemo ≠ 0 ∧
    ∀ fv ∈ outFlat (normalizeStack csDemo), ∃ q, fv = FVal.num q ∧ |q| ≤ 1 :=
  ⟨by decide, (normalize_joint_bounds csDemo).1 (by decide)⟩

/- ### dtype handling of the exporters (src/modules/unity_files.py,
save_vector_field lines 99-106 and create_vector_files lines 554-555) -/

/-- The numpy dtypes the dispatch can meet: the floating families the code
names, and representative non-float dtypes. -/
inductive NpDType where
  | f16
  | f32
  | f64
  | f128
  | i32
  | i64
  | u8
  | boolean
deriving DecidableEq

def NpDType.isFloat : NpDType → Bool
  | NpDType.f16 => true
  | NpDType.f32 => true
  | NpDType.f64 => true
  | NpDType.f128 => true
  | _ => false

/-- The dispatch of save_vector_field: float64, float16 and float128 are
astype-converted to float32; every other dtype, float32 itself included,
falls to the else branch and raises ValueError. -/
def saveVectorFieldCast (d : NpDType) : Except String NpDType :=
  if d = NpDType.f64 then Except.ok NpDType.f32
  else if d = NpDType.f16 then Except.ok NpDType.f32
  else if d = NpDType.f128 then Except.ok NpDType.f32
  else Except.error "Unsupported data type"

/-- The dispatch of create_vector_files: any dtype other than float32 is
astype-converted to float32, float32 passes through; nothing raises.  The
boolean records whether a conversion was applied. -/
def createVectorFilesCast (d : NpDType) : NpDType × Bool :=
  if d ≠ NpDType.f32 then (NpDType.f32, true) else (d, false)

/-- C8 counterexample: a float32 stack makes save_vector_field raise its
unsupported-data-type ValueError even though float32 is the 4-byte float
format itself, and an int32 stack passes create_vector_files without any
unsupported-dtype error although int32 is not floating point. -/
theorem dtype_cast_counterexample :
    saveVectorFieldCast NpDType.f32 = Except.error "Unsupported data type" ∧
    NpDType.isFloat NpDType.f32 = true ∧
    createVectorFilesCast NpDType.i32 = (NpDType.f32, true) ∧
    NpDType.isFloat NpDType.i32 = false := by
  refine ⟨rfl, rfl, rfl, rfl⟩

/-- C8 as amended: save_vector_field converts exactly float64, float16 and
float128 to float32 and raises the unsupported-data-type ValueError for every
other dtype, float32 itself included; create_vector_files never raises and
yields float32 for every dtype, converting exactly when the input is not
already float32. -/
theorem dtype_cast_behavior :
    ∀ d : NpDType,
      (saveVectorFieldCast d = Except.ok NpDType.f32 ↔
        (d = NpDType.f64 ∨ d = NpDType.f16 ∨ d = NpDType.f128)) ∧
      (saveVectorFieldCast d = Except.error "Unsupported data type" ↔
        ¬(d = NpDType.f64 ∨ d = NpDType.f16 ∨ d = NpDType.f128)) ∧
      (createVectorFilesCast d).1 = NpDType.f32 ∧
      ((createVectorFilesCast d).2 = false ↔ d = NpDType.f32) := by
  intro d
  cases d <;> simp [saveVectorFieldCast, createVectorFilesCast]

/- ### The vector_field manifest section (src/modules/unity_files.py,
create_vector_files lines 492-588) -/

/-- Python dict assignment on an association list: replace the value under an
existing key, or append the pair. -/
def setKey (l : List (String × String)) (k v : String) : List (String × String) :=
  if (l.lookup k).isSome then l.map (fun p => if p.1 = k then (k, v) else p)
  else l ++ [(k, v)]

/-- vector_dim_to_process: the axis x is always processed; y is appended when
a W component was supplied, then z when a V component was supplied (the
source maps the supplied W to the viewer y slot and the supplied V to the
viewer z slot). -/
def vectorAxes (vSupplied wSupplied : Bool) : List String :=
  ["x"] ++ (if wSupplied then ["y"] else []) ++ (if vSupplied then ["z"] else [])

/-- dim_units: x_vector_units holds the units of U, y_vector_units the units
of W, z_vector_units the units of V. -/
def axisVectorUnits (uUnits : String) (vUnits wUnits : Option String) (a : String) : String :=
  if a = "x" then uUnits
  else if a = "y" then wUnits.getD ""
  else vUnits.getD ""

/-- The vector_field manifest section.  dims0 stands for the dims dict built
before the write loop (the per-axis min/max/coordinate-units entries).  The
loop body runs meta[file_name] = dims followed by
meta[file_name]["vector_units"] = dim_units[axis + "_vector_units"]: every
file key is bound to a reference to the ONE dims dict, whose vector_units
entry is overwritten on each iteration, so after the loop (when json.dump
reads the dicts) every file key shows the final state of that shared dict. -/
def vectorFilesMeta (dims0 : List (String × String)) (uUnits : String)
    (vUnits wUnits : Option String) : List (String × List (String × String)) :=
  let axes := vectorAxes vUnits.isSome wUnits.isSome
  let final := axes.foldl
    (fun dims a => setKey dims "vector_units" (axisVectorUnits uUnits vUnits wUnits a)) dims0
  axes.map (fun a => (a ++ "_vector.vf", final))

/-- C9: with U carrying knot units and a unitless W (so files x_vector.vf and
y_vector.vf are written), the manifest entry for x_vector.vf records
vector_units "dimensionless" (the last processed axis, from W) instead of the
x component units "knot": the per-file dicts are one shared, mutated dict. -/
theorem vector_units_shared_dict :
    (vectorFilesMeta [] "knot" none (some "dimensionless")).lookup "x_vector.vf" =
      some [("vector_units", "dimensionless")] ∧
    (vectorFilesMeta [] "knot" none (some "dimensionless")).lookup "y_vector.vf" =
      some [("vector_units", "dimensionless")] ∧
    ("dimensionless" : String) ≠ "knot" := by
  refine ⟨by decide, by decide, by decide⟩

/- ### Isosurface output naming (src/modules/unity_files.py,
create_isosurface_files lines 432-465) -/

/-- variable_name: the supplied name, or the placeholder NVNP when none was
supplied. -/
def isoVariableName (vn : Option String) : String :=
  match vn with
  | some s => s
  | none => "NVNP"

/-- The manifest key and mesh file base name, str(surface) + "_" +
variable_name + "." + file_type.  levelStr stands for str(surface). -/
def isoMetaKey (levelStr : String) (vn : Option String) (fileType : String) : String :=
  levelStr ++ "_" ++ isoVariableName vn ++ "." ++ fileType

/-- The full mesh path, file_location + str(surface) + "_" + variable_name +
"." + extension. -/
def isoFileName (fileLocation levelStr : String) (vn : Option String) (fileType : String) : String :=
  fileLocation ++ levelStr ++ "_" ++ isoVariableName vn ++ "." ++ fileType

/-- The "variable" manifest field: the variable name when it differs from the
placeholder, the string "No Variable Provided" otherwise. -/
def isoVariableField (vn : Option String) : String :=
  if isoVariableName vn ≠ "NVNP" then isoVariableName vn else "No Variable Provided"

/-- C10: with no variable name supplied, each mesh file and manifest key uses
the NVNP placeholder, {level}_NVNP.{ext}, and the manifest variable field is
the string "No Variable Provided". -/
theorem nvnp_naming (loc levelStr ft : String) :
    isoFileName loc levelStr none ft = (loc ++ levelStr) ++ ("_NVNP." ++ ft) ∧
    isoMetaKey levelStr none ft = levelStr ++ ("_NVNP." ++ ft) ∧
    isoVariableField none = "No Variable Provided" := by
  refine ⟨?_, ?_, rfl⟩
  · show (((loc ++ levelStr) ++ "_") ++ "NVNP") ++ "." ++ ft = _
    rw [String.append_assoc (loc ++ levelStr) "_" "NVNP",
      String.append_assoc (loc ++ levelStr) ("_" ++ "NVNP") ".",
      String.append_assoc (loc ++ levelStr) (("_" ++ "NVNP") ++ ".") ft]
    rfl
  · show ((levelStr ++ "_") ++ "NVNP") ++ "." ++ ft = _
    rw [String.append_assoc levelStr "_" "NVNP",
      String.append_assoc levelStr ("_" ++ "NVNP") ".",
      String.append_assoc levelStr (("_" ++ "NVNP") ++ ".") ft]
    rfl

/- ### Settling the resolver claims -/

/-- C2 evaluation at the failing input: a catalog whose entries all carry
timestamps at or before the target and whose last listed object is a tar
sidecar makes the loop run off the end with f_index at the sidecar, and the
dt_past >= dt_future comparison then returns the sidecar itself as the chosen
file (the comment in the source says these files are not used). -/
theorem resolver_returns_sidecar :
    findRadarFile
      [{ name := "KXYZ19990101_000140_V06", kind := EKind.data 100 },
       { name := "NWS_SIDECAR.tar", kind := EKind.sidecar }] 200 =
    Except.ok { file := { name := "NWS_SIDECAR.tar", kind := EKind.sidecar },
                fTime := 100, dt := -100, warned := true } ∧
    AEntry.isSidecar { name := "NWS_SIDECAR.tar", kind := EKind.sidecar } = true :=
  ⟨rfl, rfl⟩

theorem findRadarFile_warned (catalog : List AEntry) (tgt : ℤ) (r : FindResult)
    (h : findRadarFile catalog tgt = Except.ok r) :
    r.warned = decide (900 ≤ r.dt.emod 86400) := by
  unfold findRadarFile at h
  repeat' split at h
  all_goals first
    | exact Except.noConfusion h
    | (injection h with h2; subst h2; rfl)

/-- C3 counterexample: a chosen delta of exactly 900 seconds (15 minutes, not
more than 15 minutes) is warned about, and a negative delta of only 100
seconds is also warned about because dt.seconds floor-normalizes a negative
timedelta to 86300. -/
theorem warning_threshold_counterexample :
    findRadarFile [{ name := "f1", kind := EKind.data 900 }] 0 =
      Except.ok { file := { name := "f1", kind := EKind.data 900 },
                  fTime := 900, dt := 900, warned := true } ∧
    ¬((900 : ℤ) > 15 * 60) ∧
    findRadarFile [{ name := "a", kind := EKind.data 100 },
                   { name := "b", kind := EKind.data 150 }] 250 =
      Except.ok { file := { name := "b", kind := EKind.data 150 },
                  fTime := 150, dt := -100, warned := true } ∧
    ((-100 : ℤ)).natAbs < 900 :=
  ⟨rfl, by decide, rfl, by decide⟩

/-- C3 as amended: the resolver warns exactly when the floor-normalized
seconds field of the chosen signed delta, dt mod 86400, is at least 900; in
particular for a nonnegative delta below one day the warning fires exactly
when the delta is at least 15 minutes (inclusive), and the resolver still
returns its result in every warned case, so no delta aborts the run. -/
theorem resolver_warning_iff (catalog : List AEntry) (tgt : ℤ) (r : FindResult)
    (h : findRadarFile catalog tgt = Except.ok r) :
    (r.warned = true ↔ 900 ≤ r.dt.emod 86400) ∧
    (0 ≤ r.dt → r.dt < 86400 → (r.warned = true ↔ 900 ≤ r.dt)) := by
  have hw := findRadarFile_warned catalog tgt r h
  constructor
  · rw [hw]
    exact decide_eq_true_iff
  · intro h1 h2
    have h3 : r.dt.emod 86400 = r.dt := Int.emod_eq_of_lt h1 h2
    rw [hw, h3]
    exact decide_eq_true_iff

def warnDemoResult : FindResult :=
  { file := { name := "a", kind := EKind.data 100 }, fTime := 100, dt := 100, warned := false }

theorem resolver_warning_iff_witness :
    findRadarFile [{ name := "a", kind := EKind.data 100 }] 0 = Except.ok warnDemoResult ∧
    ((warnDemoResult.warned = true ↔ 900 ≤ warnDemoResult.dt.emod 86400) ∧
     (0 ≤ warnDemoResult.dt → warnDemoResult.dt < 86400 →
       (warnDemoResult.warned = true ↔ 900 ≤ warnDemoResult.dt))) :=
  ⟨rfl, resolver_warning_iff [{ name := "a", kind := EKind.data 100 }] 0 warnDemoResult rfl⟩

theorem get?_entryAt (l : List AEntry) : ∀ i : ℕ, i < l.length → l.get? i = some (entryAt l i) := by
  induction l with
  | nil => intro i h; simp at h
  | cons a l ih =>
    intro i h
    cases i with
    | zero => rfl
    | succ i =>
      show l.get? i = some (entryAt l i)
      exact ih i (by simpa using h)

theorem entryAt_mem (l : List AEntry) : ∀ i : ℕ, i < l.length → entryAt l i ∈ l := by
  induction l with
  | nil => intro i h; simp at h
  | cons a l ih =>
    intro i h
    cases i with
    | zero => exact List.mem_cons_self a l
    | succ i => exact List.mem_cons_of_mem a (ih i (by simpa using h))

theorem pyGet_natCast (l : List AEntry) (i : ℕ) : pyGet l (i : ℤ) = l.get? i := by
  unfold pyGet
  rw [if_neg (by omega : ¬((i : ℤ) < 0))]
  simp

theorem kind_eq_data (e : AEntry) (h : ∃ t, e.kind = EKind.data t) :
    e.kind = EKind.data (timeOf e) := by
  obtain ⟨nm, k⟩ := e
  obtain ⟨t, ht⟩ := h
  change k = EKind.data t at ht
  subst ht
  rfl

theorem not_sidecar_of_data (e : AEntry) (h : ∃ t, e.kind = EKind.data t) :
    e.isSidecar = false := by
  obtain ⟨t, ht⟩ := h
  simp [AEntry.isSidecar, ht]

/-- Behaviour of the scanning loop on a catalog whose entries all carry
timestamps: the loop stops at some position j with future_time the timestamp
at j, past_time the previous timestamp (or the initial value when j = 0),
every entry before j at or before the target, and either the entry at j
strictly after the target (a break) or j the last position with every
timestamp at or before the target (the list ran out). -/
theorem findLoop_all_data (tgt : ℤ) :
    ∀ (l : List AEntry) (idx : ℕ) (fut : ℤ) (past : Option ℤ),
      l ≠ [] → (∀ e ∈ l, ∃ t, e.kind = EKind.data t) →
      ∃ j, j < l.length ∧
        findLoop tgt l idx fut past =
          Except.ok (idx + j, timeAt l j, some (if j = 0 then fut else timeAt l (j - 1))) ∧
        (∀ i, i < j → timeAt l i ≤ tgt) ∧
        (tgt < timeAt l j ∨ (j = l.length - 1 ∧ ∀ i, i < l.length → timeAt l i ≤ tgt)) := by
  intro l
  induction l with
  | nil => intro idx fut past hne _; exact absurd rfl hne
  | cons e rest ih =>
    intro idx fut past _ hdata
    obtain ⟨nm, k⟩ := e
    obtain ⟨t, ht⟩ := hdata ⟨nm, k⟩ (List.mem_cons_self _ _)
    change k = EKind.data t at ht
    subst ht
    by_cases hbr : tgt < t
    · refine ⟨0, by simp, ?_, by omega, Or.inl ?_⟩
      · simp [findLoop, hbr, timeAt, timeOf]
      · simpa [timeAt, timeOf] using hbr
    · have hstep : findLoop tgt ({ name := nm, kind := EKind.data t } :: rest) idx fut past =
          findLoop tgt rest (idx + 1) t (some fut) := by
        simp [findLoop, hbr]
      have htle : t ≤ tgt := not_lt.mp hbr
      cases rest with
      | nil =>
        refine ⟨0, by simp, ?_, by omega, Or.inr ⟨by simp, ?_⟩⟩
        · rw [hstep]
          simp [findLoop, timeAt, timeOf]
        · intro i hi
          simp only [List.length_cons, List.length_nil] at hi
          interval_cases i
          simpa [timeAt, timeOf] using htle
      | cons e2 rest2 =>
        obtain ⟨j, hjlen, heq, hbnd, hdisj⟩ :=
          ih (idx + 1) t (some fut) (by simp)
            (fun x hx => hdata x (List.mem_cons_of_mem _ hx))
        refine ⟨j + 1, by simp only [List.length_cons] at hjlen ⊢; omega, ?_, ?_, ?_⟩
        · rw [hstep, heq]
          rcases Nat.eq_zero_or_pos j with rfl | hj
          · have h1 : idx + 1 + 0 = idx + (0 + 1) := by omega
            rw [h1]
            rw [if_pos rfl, if_neg (by omega : ¬(0 + 1 = 0))]
            rfl
          · have h1 : idx + 1 + j = idx + (j + 1) := by omega
            rw [h1, if_neg (by omega : ¬(j = 0)), if_neg (by omega : ¬(j + 1 = 0))]
            have h2 : j + 1 - 1 = (j - 1) + 1 := by omega
            rw [h2]
            rfl
        · intro i hi
          cases i with
          | zero => simpa [timeAt, timeOf] using htle
          | succ i2 =>
            rw [timeAt_cons_succ]
            exact hbnd i2 (by omega)
        · rcases hdisj with hl | ⟨hje, hall⟩
          · exact Or.inl (by rwa [timeAt_cons_succ])
          · refine Or.inr ⟨?_, ?_⟩
            · simp only [List.length_cons] at hje ⊢
              omega
            · intro i hi
              cases i with
              | zero => simpa [timeAt, timeOf] using htle
              | succ i2 =>
                rw [timeAt_cons_succ]
                simp only [List.length_cons] at hi
                exact hall i2 (by simp only [List.length_cons]; omega)

/-- Reduction of find_radar_file when the loop stops at f_index 0. -/
theorem findRadarFile_eq_first (catalog : List AEntry) (tgt fut : ℤ) (pastOpt : Option ℤ)
    (hne : catalog ≠ [])
    (hloop : findLoop tgt catalog 0 0 none = Except.ok (0, fut, pastOpt)) :
    findRadarFile catalog tgt = Except.ok (mkResult (entryAt catalog 0) fut (fut - tgt)) := by
  have h0 : catalog.isEmpty = false := by
    cases catalog with
    | nil => exact absurd rfl hne
    | cons a l => rfl
  have hlen : 0 < catalog.length := by
    cases catalog with
    | nil => exact absurd rfl hne
    | cons a l => simp
  have hg : pyGet catalog 0 = some (entryAt catalog 0) := by
    rw [show (0 : ℤ) = ((0 : ℕ) : ℤ) from rfl, pyGet_natCast, get?_entryAt catalog 0 hlen]
  unfold findRadarFile
  rw [hloop]
  simp [h0, hg]

/-- Reduction of find_radar_file when the loop stops at a later f_index and
the entry one position earlier is not a sidecar. -/
theorem findRadarFile_eq_pair (catalog : List AEntry) (tgt fut past : ℤ) (k : ℕ)
    (hk : k ≠ 0) (hklen : k < catalog.length)
    (hloop : findLoop tgt catalog 0 0 none = Except.ok (k, fut, some past))
    (hnotsc : (entryAt catalog (k - 1)).isSidecar = false) :
    findRadarFile catalog tgt =
      if fut - tgt ≤ tgt - past
      then Except.ok (mkResult (entryAt catalog k) fut (fut - tgt))
      else Except.ok (mkResult (entryAt catalog (k - 1)) past (tgt - past)) := by
  have h0 : catalog.isEmpty = false := by
    cases catalog with
    | nil => simp at hklen
    | cons a l => rfl
  have hgk : pyGet catalog (k : ℤ) = some (entryAt catalog k) := by
    rw [pyGet_natCast, get?_entryAt catalog k hklen]
  have hgk1 : pyGet catalog ((k : ℤ) - 1) = some (entryAt catalog (k - 1)) := by
    have hcast : (k : ℤ) - 1 = ((k - 1 : ℕ) : ℤ) := by omega
    rw [hcast, pyGet_natCast, get?_entryAt catalog (k - 1) (by omega)]
  unfold findRadarFile
  rw [hloop]
  simp [h0, hk, hgk, hgk1, hnotsc]

/-- C1: on a catalog in which every entry is correctly classified with a
timestamp, listed in ascending time order, find_radar_file returns an entry
of the catalog carrying the returned time, and that time minimizes the
absolute delta to the target over every entry, with any exact past/future tie
resolved to the later timestamp. -/
theorem resolver_returns_nearest (catalog : List AEntry) (tgt : ℤ)
    (hne : catalog ≠ [])
    (hdata : ∀ e ∈ catalog, ∃ t, e.kind = EKind.data t)
    (hsorted : ∀ i j : ℕ, i ≤ j → j < catalog.length →
      timeAt catalog i ≤ timeAt catalog j) :
    ∃ r, findRadarFile catalog tgt = Except.ok r ∧
      r.file ∈ catalog ∧ r.file.kind = EKind.data r.fTime ∧
      ∀ i, i < catalog.length →
        |r.fTime - tgt| ≤ |timeAt catalog i - tgt| ∧
        (|timeAt catalog i - tgt| = |r.fTime - tgt| → timeAt catalog i ≤ r.fTime) := by
  obtain ⟨j, hjlen, heq, hbnd, hdisj⟩ := findLoop_all_data tgt catalog 0 0 none hne hdata
  have hkind : ∀ i, i < catalog.length →
      (entryAt catalog i).kind = EKind.data (timeAt catalog i) := by
    intro i hi
    exact kind_eq_data _ (hdata _ (entryAt_mem catalog i hi))
  by_cases hj0 : j = 0
  · subst hj0
    have heq2 : findLoop tgt catalog 0 0 none =
        Except.ok (0, timeAt catalog 0, some 0) := by
      simpa using heq
    have hfr := findRadarFile_eq_first catalog tgt (timeAt catalog 0) (some 0) hne heq2
    refine ⟨_, hfr, ?_, ?_, ?_⟩
    · exact entryAt_mem catalog 0 hjlen
    · exact hkind 0 hjlen
    · intro i hi
      show |timeAt catalog 0 - tgt| ≤ |timeAt catalog i - tgt| ∧
        (|timeAt catalog i - tgt| = |timeAt catalog 0 - tgt| →
          timeAt catalog i ≤ timeAt catalog 0)
      rcases hdisj with hl | ⟨hlast, hall⟩
      · have h2 : timeAt catalog 0 ≤ timeAt catalog i := hsorted 0 i (by omega) hi
        rw [abs_of_pos (by linarith), abs_of_pos (by linarith)]
        exact ⟨by linarith, fun hq => by linarith⟩
      · have hi0 : i = 0 := by omega
        subst hi0
        exact ⟨le_refl _, fun _ => le_refl _⟩
  · have heq2 : findLoop tgt catalog 0 0 none =
        Except.ok (j, timeAt catalog j, some (timeAt catalog (j - 1))) := by
      simpa [hj0] using heq
    have hnotsc : (entryAt catalog (j - 1)).isSidecar = false :=
      not_sidecar_of_data _ (hdata _ (entryAt_mem catalog (j - 1) (by omega)))
    have hfr := findRadarFile_eq_pair catalog tgt (timeAt catalog j)
      (timeAt catalog (j - 1)) j hj0 hjlen heq2 hnotsc
    by_cases hcmp : timeAt catalog j - tgt ≤ tgt - timeAt catalog (j - 1)
    · rw [if_pos hcmp] at hfr
      refine ⟨_, hfr, ?_, ?_, ?_⟩
      · exact entryAt_mem catalog j hjlen
      · exact hkind j hjlen
      · intro i hi
        show |timeAt catalog j - tgt| ≤ |timeAt catalog i - tgt| ∧
          (|timeAt catalog i - tgt| = |timeAt catalog j - tgt| →
            timeAt catalog i ≤ timeAt catalog j)
        rcases hdisj with hl | ⟨hlast, hall⟩
        · rcases le_or_lt j i with hji | hij
          · have h2 : timeAt catalog j ≤ timeAt catalog i := hsorted j i hji hi
            rw [abs_of_pos (by linarith), abs_of_pos (by linarith)]
            exact ⟨by linarith, fun hq => by linarith⟩
          · have h2 : timeAt catalog i ≤ tgt := hbnd i hij
            have h3 : timeAt catalog i ≤ timeAt catalog (j - 1) :=
              hsorted i (j - 1) (by omega) (by omega)
            have h4 : timeAt catalog (j - 1) ≤ tgt := hbnd (j - 1) (by omega)
            rw [abs_of_pos (by linarith), abs_of_nonpos (by linarith)]
            exact ⟨by linarith, fun hq => by linarith⟩
        · have h2 : timeAt catalog i ≤ timeAt catalog j := hsorted i j (by omega) hjlen
          have h3 : timeAt catalog j ≤ tgt := hall j hjlen
          rw [abs_of_nonpos (by linarith), abs_of_nonpos (by linarith)]
          exact ⟨by linarith, fun hq => by linarith⟩
    · rw [if_neg hcmp] at hfr
      push_neg at hcmp
      have hbreak : tgt < timeAt catalog j := by
        rcases hdisj with hl | ⟨hlast, hall⟩
        · exact hl
        · have h1 : timeAt catalog (j - 1) ≤ tgt := hall (j - 1) (by omega)
          have h2 : timeAt catalog j ≤ tgt := hall j hjlen
          linarith
      refine ⟨_, hfr, ?_, ?_, ?_⟩
      · exact entryAt_mem catalog (j - 1) (by omega)
      · exact hkind (j - 1) (by omega)
      · intro i hi
        show |timeAt catalog (j - 1) - tgt| ≤ |timeAt catalog i - tgt| ∧
          (|timeAt catalog i - tgt| = |timeAt catalog (j - 1) - tgt| →
            timeAt catalog i ≤ timeAt catalog (j - 1))
        have hT : timeAt catalog (j - 1) ≤ tgt := hbnd (j - 1) (by omega)
        rcases lt_or_ge i j with hij | hji
        · have h2 : timeAt catalog i ≤ timeAt catalog (j - 1) :=
            hsorted i (j - 1) (by omega) (by omega)
          rw [abs_of_nonpos (by linarith), abs_of_nonpos (by linarith)]
          exact ⟨by linarith, fun hq => by linarith⟩
        · have h2 : timeAt catalog j ≤ timeAt catalog i := hsorted j i hji hi
          rw [abs_of_nonpos (by linarith), abs_of_pos (by linarith)]
          exact ⟨by linarith, fun hq => by linarith⟩

def catDemo : List AEntry :=
  [{ name := "KXYZ20100101_000140_V06", kind := EKind.data 100 },
   { name := "KXYZ20100101_000640_V06", kind := EKind.data 400 }]

theorem resolver_returns_nearest_witness :
    catDemo ≠ [] ∧
    ∃ r, findRadarFile catDemo 250 = Except.ok r ∧
      r.file ∈ catDemo ∧ r.file.kind = EKind.data r.fTime ∧
      ∀ i, i < catDemo.length →
        |r.fTime - 250| ≤ |timeAt catDemo i - 250| ∧
        (|timeAt catDemo i - 250| = |r.fTime - 250| → timeAt catDemo i ≤ r.fTime) := by
  have h1 : catDemo ≠ [] := by simp [catDemo]
  have h2 : ∀ e ∈ catDemo, ∃ t, e.kind = EKind.data t := by
    intro e he
    simp only [catDemo, List.mem_cons, List.not_mem_nil, or_false] at he
    rcases he with rfl | rfl
    · exact ⟨100, rfl⟩
    · exact ⟨400, rfl⟩
  have h3 : ∀ i j : ℕ, i ≤ j → j < catDemo.length → timeAt catDemo i ≤ timeAt catDemo j := by
    intro i j hij hj
    have hlen : catDemo.length = 2 := rfl
    rw [hlen] at hj
    interval_cases j <;> interval_cases i <;> decide
  exact ⟨h1, resolver_returns_nearest catDemo 250 h1 h2 h3⟩
